import Mathlib

/-!
Verification of the tox-dynboot repository (package toxdynboot).

The development shallowly embeds the current-version code of main.go:
the record type ToxNode, the registry parser parseNodes (with its helper
loop building records from the cleaned field list), the TCP liveness
probe isAlive, and the three probe schedulers FetchAlive, FetchAnyAlive
and FetchFirstAlive.  Network effects are modelled by explicit oracles:
the HTTP body is a String argument, the dial outcome is a function
argument, and the nondeterministic arrival order of goroutine results on
the channel is an explicit list constrained to be a permutation of the
launched probes' results.  Go runtime panics (out-of-range slice bounds)
are modelled by an explicit crash outcome.
-/

namespace ToxDynboot

/-- ToxNode mirrors the Go struct of the same name: a single node
candidate parsed from the wiki registry (current 6-column layout, which
carries no advertised up or down status field). -/
structure ToxNode where
  IPv4 : String
  IPv6 : String
  Port : Nat
  PublicKey : List Nat
  Maintainer : String
  Location : String
deriving DecidableEq, Repr

instance : Inhabited ToxNode := ⟨⟨"", "", 0, [], "", ""⟩⟩

/-- Typed errors of the parser, mirroring errSourceFormat and
errSourceTable plus the strconv.ParseInt and hex.DecodeString failures
propagated by parseNodes. -/
inductive PErr where
  | sourceFormat
  | sourceTable
  | portConv
  | keyDecode
deriving DecidableEq, Repr

/-- Result of a Go function returning (value, error); crash models a Go
runtime panic (such as an out-of-range slice bound). -/
inductive FetchResult (α : Type) where
  | ok : α → FetchResult α
  | err : PErr → FetchResult α
  | crash : FetchResult α
deriving DecidableEq, Repr

/-- isErrResult is true exactly when the outcome is a returned non-nil
Go error value (a crash is a panic, not a returned error). -/
def isErrResult {α : Type} : FetchResult α → Bool
  | .err _ => true
  | _ => false

/-- splitCharList models strings.Split(s, pipe) at character level: the
pieces of the character list between occurrences of the bar character.
Like the Go function it always yields at least one piece. -/
def splitCharList : List Char → List (List Char)
  | [] => [[]]
  | ch :: rest =>
    let r := splitCharList rest
    if ch = '|' then [] :: r
    else
      match r with
      | [] => [[ch]]
      | g :: gs => (ch :: g) :: gs

/-- trimChars models strings.TrimSpace: drop leading and trailing
whitespace characters. -/
def trimChars (cs : List Char) : List Char :=
  ((cs.dropWhile Char.isWhitespace).reverse.dropWhile Char.isWhitespace).reverse

/-- cleanedOf models the cleaning loop of parseNodes: take the Go slice
splitted[1:len(splitted)-2] (drop the first piece and the last two),
trim each remaining candidate and drop the ones that trim to empty. -/
def cleanedOf (splitted : List (List Char)) : List (List Char) :=
  ((splitted.drop 1).take (splitted.length - 3)).filterMap fun cand =>
    let c := trimChars cand
    if c.isEmpty then none else some c

/-- cleanedFields is the cleaned field list parseNodes computes from the
raw registry body. -/
def cleanedFields (contents : String) : List (List Char) :=
  cleanedOf (splitCharList contents.data)

/-- decDigitsVal reads a non-empty all-decimal-digit character list as a
natural number, as the digit part of strconv.ParseInt does in base 10. -/
def decDigitsVal (cs : List Char) : Option Nat :=
  if cs.isEmpty then none
  else if cs.all Char.isDigit then
    some (cs.foldl (fun acc ch => 10 * acc + (ch.toNat - 48)) 0)
  else none

/-- goParseInt32 models strconv.ParseInt(s, 10, 32): an optional sign
followed by at least one decimal digit, with the value required to fit
in a signed 32-bit integer (out-of-range values yield an error, which
parseNodes propagates). -/
def goParseInt32 (cs : List Char) : Option Int :=
  match cs with
  | '+' :: rest =>
    match decDigitsVal rest with
    | some n => if (n : Int) ≤ 2147483647 then some (n : Int) else none
    | none => none
  | '-' :: rest =>
    match decDigitsVal rest with
    | some n => if (n : Int) ≤ 2147483648 then some (-(n : Int)) else none
    | none => none
  | _ =>
    match decDigitsVal cs with
    | some n => if (n : Int) ≤ 2147483647 then some (n : Int) else none
    | none => none

/-- hexDigitVal gives the value of one hexadecimal digit character, as
encoding/hex does. -/
def hexDigitVal (ch : Char) : Option Nat :=
  if '0' ≤ ch ∧ ch ≤ '9' then some (ch.toNat - 48)
  else if 'a' ≤ ch ∧ ch ≤ 'f' then some (ch.toNat - 87)
  else if 'A' ≤ ch ∧ ch ≤ 'F' then some (ch.toNat - 55)
  else none

/-- hexDecode models hex.DecodeString: consume the characters two at a
time into bytes, failing on a non-hex character or an odd length. -/
def hexDecode : List Char → Option (List Nat)
  | [] => some []
  | [_] => none
  | a :: b :: rest =>
    match hexDigitVal a, hexDigitVal b, hexDecode rest with
    | some x, some y, some r => some ((16 * x + y) :: r)
    | _, _, _ => none

/-- uint16cast models the Go conversion uint16(temp) applied to the
parsed 32-bit port value: two's-complement truncation to 16 bits, which
is reduction modulo 2^16. -/
def uint16cast (z : Int) : Nat := (z % 65536).toNat

/-- buildNodes is the record-building loop of parseNodes: consume the
cleaned field list six fields at a time (columns IPv4, IPv6, Port, Key,
Maintainer, Location), converting the port with strconv.ParseInt and the
key with hex.DecodeString, and aborting on the first conversion error. -/
def buildNodes : List (List Char) → FetchResult (List ToxNode)
  | ip4 :: ip6 :: pr :: key :: mt :: lc :: rest =>
    match goParseInt32 pr with
    | none => .err .portConv
    | some p =>
      match hexDecode key with
      | none => .err .keyDecode
      | some k =>
        match buildNodes rest with
        | .ok ns =>
          .ok ({ IPv4 := String.mk ip4, IPv6 := String.mk ip6,
                 Port := uint16cast p, PublicKey := k,
                 Maintainer := String.mk mt, Location := String.mk lc } :: ns)
        | other => other
  | [] => .ok []
  | _ => .err .sourceTable

/-- buildStage is the tail of parseNodes after cleaning: reject a field
count not divisible by tableColumns (6) with errSourceTable, otherwise
build the records. -/
def buildStage (list : List (List Char)) : FetchResult (List ToxNode) :=
  if list.length % 6 ≠ 0 then .err .sourceTable else buildNodes list

/-- parseNodes models the Go parseNodes applied to an already fetched
HTTP body (HTTP transport failures are outside this embedding).  It
mirrors the source exactly: the strings.Contains guard, the split on the
bar character, the dead empty-split check, the Go slice
splitted[1:len(splitted)-2] — which panics when the split has fewer than
three pieces, modelled by crash — then cleaning, the column-count check
and the building loop. -/
def parseNodes (contents : String) : FetchResult (List ToxNode) :=
  if (contents.data.contains '|') = false then .err .sourceFormat
  else
    let splitted := splitCharList contents.data
    if splitted.length = 0 then .err .sourceFormat
    else if splitted.length < 3 then .crash
    else buildStage (cleanedOf splitted)

/-- chunkNode states the documented column mapping for one six-field
chunk of the cleaned list: field 0 is IPv4, 1 is IPv6, 2 is the port
(parsed then truncated to uint16), 3 is the dehexed public key, 4 is the
maintainer and 5 is the location. -/
def chunkNode (l : List (List Char)) : ToxNode :=
  { IPv4 := String.mk (l.getD 0 [])
  , IPv6 := String.mk (l.getD 1 [])
  , Port := uint16cast ((goParseInt32 (l.getD 2 [])).getD 0)
  , PublicKey := (hexDecode (l.getD 3 [])).getD []
  , Maintainer := String.mk (l.getD 4 [])
  , Location := String.mk (l.getD 5 []) }

/-- nodeAt is the record that the documented column mapping assigns to
row i of the cleaned field list. -/
def nodeAt (l : List (List Char)) (i : Nat) : ToxNode :=
  chunkNode (l.drop (6 * i))

/-- DialOutcome enumerates the outcomes of net.DialTimeout relevant to
the probe: success, active rejection by the remote host, and the
non-rejection failure modes (timeout expiry, routing failure, name
resolution failure). -/
inductive DialOutcome where
  | success
  | refused
  | ioTimeout
  | netUnreachable
  | noSuchHost
deriving DecidableEq, Repr

/-- dialErrMsg gives the Go error message text of each dial outcome
(none for a successful connection), as isAlive observes it through
err.Error(). -/
def dialErrMsg : DialOutcome → Option (List Char)
  | .success => none
  | .refused => some (String.data ("connect: connection refused"))
  | .ioTimeout => some (String.data ("dial tcp: i/o timeout"))
  | .netUnreachable => some (String.data ("connect: network is unreachable"))
  | .noSuchHost => some (String.data ("lookup: no such host"))

/-- containsSub models strings.Contains on character lists: the pattern
occurs as a contiguous run somewhere in the text. -/
def containsSub (hay pat : List Char) : Bool :=
  match hay with
  | [] => pat.isEmpty
  | _ :: t => pat.isPrefixOf hay || containsSub t pat

/-- dialAddress is the address string isAlive dials: the IPv4 address
joined with the decimal port — the IPv6 address is never used. -/
def dialAddress (node : ToxNode) : String :=
  node.IPv4 ++ ":" ++ Nat.repr node.Port

/-- goIsAlive models isAlive with the network as an oracle mapping an
address and timeout to a dial outcome: reachable when the dial succeeds
or its error message contains the connection-refused marker, unreachable
on every other error. -/
def goIsAlive (node : ToxNode) (timeout : Nat)
    (dial : String → Nat → DialOutcome) : Bool :=
  match dialErrMsg (dial (dialAddress node) timeout) with
  | none => true
  | some msg => containsSub msg (String.data ("connection refused"))

/-- probeResults is the multiset of messages the launched goroutines
send on the channel, one per input record in launch order: the record
itself when its probe succeeds, nil otherwise. -/
def probeResults (nodes : List ToxNode) (alive : ToxNode → Bool) :
    List (Option ToxNode) :=
  nodes.map fun node => if alive node then some node else none

/-- aggregateAlive is the FetchAlive aggregation loop applied to the
channel messages in their arrival order: keep every non-nil candidate,
in arrival order. -/
def aggregateAlive (arrival : List (Option ToxNode)) : List ToxNode :=
  arrival.filterMap fun c => c

/-- fetchAnyAliveSelect is the selection step of FetchAnyAlive on the
alive list returned by FetchAlive: nil when the list is empty, otherwise
the element at the random index k produced by rand.Intn. -/
def fetchAnyAliveSelect (aliveNodes : List ToxNode) (k : Nat) : Option ToxNode :=
  if aliveNodes.isEmpty then none else some (aliveNodes.getD k default)

/-- fetchFirstAliveNodes is FetchFirstAlive after parsing: nil (with nil
error) when no node was parsed, otherwise the single first message read
from the channel; the remaining arrivals are never consulted.  The empty
arrival branch is unreachable when nodes is non-empty, since every
launched goroutine sends exactly one message. -/
def fetchFirstAliveNodes (nodes : List ToxNode)
    (arrival : List (Option ToxNode)) : Option ToxNode :=
  if nodes.isEmpty then none
  else
    match arrival with
    | [] => none
    | c :: _ => c

/-- fetchFirstAlive is the whole FetchFirstAlive pipeline: parse the
registry body, propagate parse errors, then apply the first-arrival
selection. -/
def fetchFirstAlive (contents : String) (arrival : List (Option ToxNode)) :
    FetchResult (Option ToxNode) :=
  match parseNodes contents with
  | .ok nodes => .ok (fetchFirstAliveNodes nodes arrival)
  | .err e => .err e
  | .crash => .crash

/-- parseNodesList is the record list parseNodes yields on success, and
the empty list on error (used only to speak about the successful path). -/
def parseNodesList (contents : String) : List ToxNode :=
  match parseNodes contents with
  | .ok l => l
  | _ => []

/-- fetchAliveLaunched is the list of records the FetchAlive loop
launches one probe goroutine for: the source iterates over every parsed
record with no filtering whatsoever. -/
def fetchAliveLaunched (contents : String) : List ToxNode :=
  parseNodesList contents

/-- GoThunk models the body of one launched goroutine together with how
it obtained its record: byValue holds the argument evaluated at the go
statement (what the source does), while captured stands for the hazard
of a closure reading the shared loop variable at run time. -/
inductive GoThunk where
  | byValue : ToxNode → GoThunk
  | captured : GoThunk
deriving DecidableEq, Repr

/-- spawnProbes models the launch loop shared by FetchAlive,
FetchAnyAlive and FetchFirstAlive: each iteration passes the current
record by value into the goroutine's argument list, so each thunk holds
its own copy. -/
def spawnProbes (nodes : List ToxNode) : List GoThunk :=
  nodes.map GoThunk.byValue

/-- loopVarAt gives the contents of the shared loop variable when a
goroutine scheduled at step t runs: the record of the iteration in
progress, or the last record once the loop has finished. -/
def loopVarAt (nodes : List ToxNode) (t : Nat) : ToxNode :=
  nodes.getD (min t (nodes.length - 1)) default

/-- observeRecord is the record a thunk sees when it finally runs at
step t: a by-value thunk sees its own stored copy, a capturing closure
would see whatever the shared loop variable holds at step t. -/
def observeRecord (nodes : List ToxNode) (th : GoThunk) (t : Nat) : ToxNode :=
  match th with
  | .byValue n => n
  | .captured => loopVarAt nodes t

/-- probeObservation is the record observed by the i-th launched probe
when the scheduler runs it at step sched i. -/
def probeObservation (nodes : List ToxNode) (sched : Nat → Nat) (i : Nat) :
    ToxNode :=
  observeRecord nodes ((spawnProbes nodes).getD i GoThunk.captured) (sched i)

/-- nodeA is a concrete alive test record used by the witnesses. -/
def nodeA : ToxNode := ⟨"1.2.3.4", "::1", 1, [171], "alice", "de"⟩

/-- nodeB is a concrete test record used by the witnesses. -/
def nodeB : ToxNode := ⟨"5.6.7.8", "::2", 2, [205], "bob", "us"⟩

/-- aliveW is a concrete liveness oracle marking exactly nodeA (port 1)
alive. -/
def aliveW : ToxNode → Bool := fun n => n.Port == 1

/-- aliveB is a concrete liveness oracle marking exactly nodeB (port 2)
alive. -/
def aliveB : ToxNode → Bool := fun n => n.Port == 2

/-- dialRefusedW is a network oracle on which every dial is actively
refused by the remote host. -/
def dialRefusedW : String → Nat → DialOutcome := fun _ _ => DialOutcome.refused

/-- stDown is a registry status assignment marking every record except
nodeA as advertised-down (in particular nodeB is down). -/
def stDown : ToxNode → Bool := fun n => n.IPv4 == "1.2.3.4"

/-- contents5 is a concrete registry body parsing to the two records
nodeA5 and nodeB5. -/
def contents5 : String :=
  "h|1.2.3.4|::1|33445|AB|alice|de|5.6.7.8|::2|33446|CD|bob|us|t|t2"

/-- nodeA5 is the first record parsed from contents5. -/
def nodeA5 : ToxNode := ⟨"1.2.3.4", "::1", 33445, [171], "alice", "de"⟩

/-- nodeB5 is the second record parsed from contents5. -/
def nodeB5 : ToxNode := ⟨"5.6.7.8", "::2", 33446, [205], "bob", "us"⟩

/-- contents7 is a concrete registry body parsing to the single record
node7. -/
def contents7 : String := "h|1.2.3.4|::1|33445|AB|alice|de|t|t2"

/-- node7 is the record parsed from contents7. -/
def node7 : ToxNode := ⟨"1.2.3.4", "::1", 33445, [171], "alice", "de"⟩

end ToxDynboot

namespace ToxDynboot

/-- Helper: collecting the non-nil probe messages yields exactly the
records the liveness oracle accepts, in launch order. -/
theorem probeResults_filterMap (nodes : List ToxNode) (alive : ToxNode → Bool) :
    (probeResults nodes alive).filterMap (fun c => c) = nodes.filter alive := by
  induction nodes with
  | nil => rfl
  | cons hd tl ih =>
    cases h : alive hd <;>
      simp [probeResults, List.filter_cons, h, ← ih]

/-- Helper: any record collected by the aggregation loop is an input
record whose probe succeeded. -/
theorem mem_probeAgg (nodes : List ToxNode) (alive : ToxNode → Bool)
    (arrival : List (Option ToxNode))
    (harr : arrival.Perm (probeResults nodes alive)) (n : ToxNode)
    (hn : n ∈ aggregateAlive arrival) : n ∈ nodes ∧ alive n = true := by
  have h1 : some n ∈ arrival := by
    rcases List.mem_filterMap.1 hn with ⟨a, ha, hfa⟩
    simpa [hfa] using ha
  have h2 : some n ∈ probeResults nodes alive := (harr.mem_iff).1 h1
  rcases List.mem_map.1 h2 with ⟨m, hm, hfm⟩
  cases hal : alive m with
  | true =>
    rw [hal] at hfm
    simp only [if_pos] at hfm
    cases hfm
    exact ⟨hm, hal⟩
  | false =>
    rw [hal] at hfm
    simp at hfm

end ToxDynboot

namespace ToxDynboot

/-- C1: for every non-empty record list and timeout, the All-policy
scheduler FetchAlive waits for every launched probe (it reads exactly
one channel message per launched goroutine) and, for any arrival order
of the probe results, returns exactly the input records whose probe
returned true, each such record exactly once; a false or malfunctioning
probe only contributes a nil message and never removes other alive
records or aborts the batch. -/
theorem claim1_fetchAlive_all_policy (nodes : List ToxNode)
    (alive : ToxNode → Bool) (arrival : List (Option ToxNode))
    (hne : nodes ≠ []) (harr : arrival.Perm (probeResults nodes alive)) :
    (aggregateAlive arrival).Perm (nodes.filter alive)
      ∧ arrival.length = nodes.length := by
  constructor
  · have h := harr.filterMap (fun c => c)
    rw [probeResults_filterMap] at h
    exact h
  · have h := harr.length_eq
    simpa [probeResults] using h

/-- Witness for C1 at a concrete two-record input where only nodeA is
alive. -/
theorem claim1_fetchAlive_all_policy_witness :
    (aggregateAlive (probeResults [nodeA, nodeB] aliveW)).Perm
        (List.filter aliveW [nodeA, nodeB])
      ∧ (probeResults [nodeA, nodeB] aliveW).length = [nodeA, nodeB].length :=
  claim1_fetchAlive_all_policy [nodeA, nodeB] aliveW
    (probeResults [nodeA, nodeB] aliveW) (by decide) (List.Perm.refl _)

/-- C2: for every record with non-empty IPv4 address and every timeout,
isAlive returns true exactly when the single dial attempt succeeds or
fails with a connection-refused error, and false on every other failure
mode (timeout expiry, routing failure, name errors); moreover the probe
depends only on the IPv4 address and port — the IPv6 address is never
consulted. -/
theorem claim2_isAlive_refused_or_success (node : ToxNode) (timeout : Nat)
    (dial : String → Nat → DialOutcome) (hip : node.IPv4 ≠ "") :
    (goIsAlive node timeout dial = true ↔
        dial (dialAddress node) timeout = DialOutcome.success ∨
        dial (dialAddress node) timeout = DialOutcome.refused)
      ∧ (∀ other : ToxNode, other.IPv4 = node.IPv4 → other.Port = node.Port →
          goIsAlive other timeout dial = goIsAlive node timeout dial) := by
  constructor
  · cases h : dial (dialAddress node) timeout <;>
      simp only [goIsAlive, dialErrMsg, h] <;> decide
  · intro other h4 hp
    simp [goIsAlive, dialAddress, h4, hp]

/-- Witness for C2 on a network oracle that refuses every dial. -/
theorem claim2_isAlive_refused_or_success_witness :
    (goIsAlive nodeA 100 dialRefusedW = true ↔
        dialRefusedW (dialAddress nodeA) 100 = DialOutcome.success ∨
        dialRefusedW (dialAddress nodeA) 100 = DialOutcome.refused)
      ∧ (∀ other : ToxNode, other.IPv4 = nodeA.IPv4 → other.Port = nodeA.Port →
          goIsAlive other 100 dialRefusedW = goIsAlive nodeA 100 dialRefusedW) :=
  claim2_isAlive_refused_or_success nodeA 100 dialRefusedW (by decide)

/-- C3: for every non-empty record list, FetchFirstAlive is decided
solely by the temporally first probe result: its outcome is unchanged by
the later arrivals (it consumes exactly one message), an alive first
arrival is returned immediately, and a nil first arrival yields the
none-reached outcome immediately even when a later in-flight probe would
have succeeded. -/
theorem claim3_first_arrival_decides (nodes : List ToxNode)
    (alive : ToxNode → Bool) (arrival : List (Option ToxNode))
    (hne : nodes ≠ []) (harr : arrival.Perm (probeResults nodes alive)) :
    (∀ c r1 r2, fetchFirstAliveNodes nodes (c :: r1)
        = fetchFirstAliveNodes nodes (c :: r2))
      ∧ (∀ n r, arrival = some n :: r →
          fetchFirstAliveNodes nodes arrival = some n)
      ∧ (∀ r, arrival = none :: r →
          fetchFirstAliveNodes nodes arrival = none) := by
  have hni : nodes.isEmpty = false := by
    cases nodes with
    | nil => exact absurd rfl hne
    | cons a l => rfl
  refine ⟨?_, ?_, ?_⟩
  · intro c r1 r2
    simp [fetchFirstAliveNodes, hni]
  · intro n r h
    subst h
    simp [fetchFirstAliveNodes, hni]
  · intro r h
    subst h
    simp [fetchFirstAliveNodes, hni]

/-- Witness for C3: with nodeA dead and nodeB alive but slower, the nil
result arriving first makes FetchFirstAlive return the none outcome even
though nodeB's successful result is still in flight. -/
theorem claim3_first_arrival_decides_witness :
    fetchFirstAliveNodes [nodeA, nodeB] (probeResults [nodeA, nodeB] aliveB)
      = none :=
  (claim3_first_arrival_decides [nodeA, nodeB] aliveB
      (probeResults [nodeA, nodeB] aliveB) (by decide)
      (List.Perm.refl _)).2.2 [some nodeB] (by decide)

/-- C4 counterexample: on a registry body that parses to zero records,
FetchFirstAlive returns the (nil, nil) none outcome, not a
no-candidates error — refuting the claim that the FirstOne policy
returns an error for the empty record sequence. -/
theorem claim4_counterexample :
    fetchFirstAlive ("x| |y") [] = FetchResult.ok none
      ∧ isErrResult (fetchFirstAlive ("x| |y") []) = false := by
  constructor <;> rfl

/-- C4 (amended): for the empty record sequence, no probe is launched
and scheduling returns immediately: the All policy returns the empty
result, the AnyOne policy returns the none outcome, and the FirstOne
policy also returns a none outcome (nil record with nil error) rather
than a no-candidates error. -/
theorem claim4_empty_sequence (alive : ToxNode → Bool)
    (arrival : List (Option ToxNode)) (k : Nat)
    (harr : arrival.Perm (probeResults [] alive)) :
    probeResults [] alive = []
      ∧ arrival = []
      ∧ aggregateAlive arrival = []
      ∧ fetchAnyAliveSelect (aggregateAlive arrival) k = none
      ∧ fetchFirstAliveNodes [] arrival = none := by
  have h1 : arrival = [] := by
    have h := harr.length_eq
    simp [probeResults] at h
    exact h
  subst h1
  exact ⟨rfl, rfl, rfl, rfl, rfl⟩

/-- Witness for C4 (amended) at the empty record list. -/
theorem claim4_empty_sequence_witness :
    probeResults [] aliveW = []
      ∧ ([] : List (Option ToxNode)) = []
      ∧ aggregateAlive [] = []
      ∧ fetchAnyAliveSelect (aggregateAlive []) 0 = none
      ∧ fetchFirstAliveNodes [] [] = none :=
  claim4_empty_sequence aliveW [] 0 (List.Perm.refl _)

end ToxDynboot

namespace ToxDynboot

/-- Helper: the column mapping commutes with removing one whole six-field
chunk from the front of the cleaned list. -/
theorem nodeAt_cons6 (a b c d e f : List Char) (l : List (List Char)) (i : Nat) :
    nodeAt (a :: b :: c :: d :: e :: f :: l) (i + 1) = nodeAt l i := by
  have h6 : 6 * (i + 1) = 6 + 6 * i := by ring
  simp only [nodeAt]
  rw [h6, ← List.drop_drop]
  rfl

/-- Helper: when the building loop succeeds, it yields one record per
six fields and every record follows the documented column mapping. -/
theorem buildNodes_spec : ∀ (l : List (List Char)) (ns : List ToxNode),
    buildNodes l = FetchResult.ok ns →
    l.length = 6 * ns.length
      ∧ ∀ i, i < ns.length → ns.getD i default = nodeAt l i
  | [], ns, h => by
    simp only [buildNodes] at h
    cases h
    exact ⟨rfl, by intro i hi; simp at hi⟩
  | [a], ns, h => by simp [buildNodes] at h
  | [a, b], ns, h => by simp [buildNodes] at h
  | [a, b, c], ns, h => by simp [buildNodes] at h
  | [a, b, c, d], ns, h => by simp [buildNodes] at h
  | [a, b, c, d, e], ns, h => by simp [buildNodes] at h
  | ip4 :: ip6 :: pr :: key :: mt :: lc :: rest, ns, h => by
    unfold buildNodes at h
    cases hp : goParseInt32 pr with
    | none => rw [hp] at h; cases h
    | some p =>
      rw [hp] at h
      cases hk : hexDecode key with
      | none => rw [hk] at h; cases h
      | some kb =>
        rw [hk] at h
        cases hb : buildNodes rest with
        | ok ns2 =>
          rw [hb] at h
          cases h
          have ih := buildNodes_spec rest ns2 hb
          constructor
          · simp only [List.length_cons, ih.1]
            ring
          · intro i hi
            cases i with
            | zero =>
              simp [nodeAt, chunkNode, hp, hk]
            | succ j =>
              have hj : j < ns2.length := by
                simp only [List.length_cons] at hi
                omega
              rw [List.getD_cons_succ, ih.2 j hj, nodeAt_cons6]
        | err e => rw [hb] at h; cases h
        | crash => rw [hb] at h; cases h

/-- C5 counterexample: on a concrete registry body parsing to two
records, FetchAlive launches a probe for every parsed record, so for a
status assignment that marks nodeB5 advertised-down the launched set is
not the advertised-up subset and the down-marked record is probed —
refuting the claim that FetchAlive pre-filters to up candidates. -/
theorem claim5_counterexample :
    fetchAliveLaunched contents5 ≠ List.filter stDown (parseNodesList contents5)
      ∧ nodeB5 ∈ fetchAliveLaunched contents5
      ∧ stDown nodeB5 = false := by
  refine ⟨?_, ?_, ?_⟩ <;> decide

/-- C5 (amended): FetchAlive probes every record parseNodes yields, with
no advertised-status pre-filtering — the current 6-column registry
format carries no status field at all. -/
theorem claim5_no_up_filter (contents : String) (nodes : List ToxNode)
    (h : parseNodes contents = FetchResult.ok nodes) :
    fetchAliveLaunched contents = nodes := by
  simp [fetchAliveLaunched, parseNodesList, h]

/-- Witness for C5 (amended) at the concrete two-record registry body. -/
theorem claim5_no_up_filter_witness :
    fetchAliveLaunched contents5 = [nodeA5, nodeB5] :=
  claim5_no_up_filter contents5 [nodeA5, nodeB5] (by decide)

/-- C6: FetchAnyAlive is the All-policy result followed by selection at
the random index: when the reachable set is empty it returns the none
outcome (not an error), and otherwise it returns the member of the
All-policy result at the picked index — always a member of that result,
an input record, and one whose probe succeeded. -/
theorem claim6_anyone_from_all (nodes : List ToxNode) (alive : ToxNode → Bool)
    (arrival : List (Option ToxNode)) (k : Nat)
    (harr : arrival.Perm (probeResults nodes alive))
    (hk : aggregateAlive arrival ≠ [] → k < (aggregateAlive arrival).length) :
    (aggregateAlive arrival = [] →
        fetchAnyAliveSelect (aggregateAlive arrival) k = none)
      ∧ (aggregateAlive arrival ≠ [] →
          fetchAnyAliveSelect (aggregateAlive arrival) k
              = some ((aggregateAlive arrival).getD k default)
            ∧ (aggregateAlive arrival).getD k default ∈ aggregateAlive arrival
            ∧ (aggregateAlive arrival).getD k default ∈ nodes
            ∧ alive ((aggregateAlive arrival).getD k default) = true) := by
  constructor
  · intro h
    simp [fetchAnyAliveSelect, h]
  · intro h
    have hk2 := hk h
    have hne : (aggregateAlive arrival).isEmpty = false := by
      cases hl : aggregateAlive arrival with
      | nil => exact absurd hl h
      | cons a l => rfl
    have hmem : (aggregateAlive arrival).getD k default ∈ aggregateAlive arrival := by
      rw [List.getD_eq_getElem _ _ hk2]
      exact List.getElem_mem hk2
    have hmain := mem_probeAgg nodes alive arrival harr _ hmem
    exact ⟨by simp [fetchAnyAliveSelect, hne], hmem, hmain.1, hmain.2⟩

/-- Witness for C6 at a concrete input where only nodeA is alive and the
random index is 0. -/
theorem claim6_anyone_from_all_witness :
    (aggregateAlive (probeResults [nodeA, nodeB] aliveW) = [] →
        fetchAnyAliveSelect (aggregateAlive (probeResults [nodeA, nodeB] aliveW)) 0
          = none)
      ∧ (aggregateAlive (probeResults [nodeA, nodeB] aliveW) ≠ [] →
          fetchAnyAliveSelect (aggregateAlive (probeResults [nodeA, nodeB] aliveW)) 0
              = some ((aggregateAlive (probeResults [nodeA, nodeB] aliveW)).getD 0
                  default)
            ∧ (aggregateAlive (probeResults [nodeA, nodeB] aliveW)).getD 0 default
                ∈ aggregateAlive (probeResults [nodeA, nodeB] aliveW)
            ∧ (aggregateAlive (probeResults [nodeA, nodeB] aliveW)).getD 0 default
                ∈ [nodeA, nodeB]
            ∧ aliveW ((aggregateAlive (probeResults [nodeA, nodeB] aliveW)).getD 0
                default) = true) :=
  claim6_anyone_from_all [nodeA, nodeB] aliveW
    (probeResults [nodeA, nodeB] aliveW) 0 (List.Perm.refl _)
    (by intro h; decide)

/-- C7: for every registry body passing the format guards (it contains a
separator and splits into at least three pieces, so the Go slice is in
range), if the cleaned field list has length divisible by six and every
chunk converts, parseNodes succeeds with exactly one record per six
fields, each record mapping the documented columns (0 IPv4, 1 IPv6,
2 Port, 3 dehexed PublicKey, 4 Maintainer, 5 Location); and if the
cleaned length is not divisible by six, parseNodes yields the
errSourceTable parse error and no records. -/
theorem claim7_parse_column_mapping (contents : String) (ns : List ToxNode)
    (h1 : (contents.data.contains ('|')) = true)
    (h2 : 3 ≤ (splitCharList contents.data).length) :
    ((cleanedFields contents).length % 6 = 0 →
        buildNodes (cleanedFields contents) = FetchResult.ok ns →
        parseNodes contents = FetchResult.ok ns
          ∧ 6 * ns.length = (cleanedFields contents).length
          ∧ ∀ i, i < ns.length →
              ns.getD i default = nodeAt (cleanedFields contents) i)
      ∧ ((cleanedFields contents).length % 6 ≠ 0 →
          parseNodes contents = FetchResult.err PErr.sourceTable) := by
  have hparse : parseNodes contents = buildStage (cleanedFields contents) := by
    simp only [parseNodes, cleanedFields]
    rw [if_neg (by rw [h1]; decide), if_neg (by omega), if_neg (by omega)]
  constructor
  · intro hdiv hbuild
    have hspec := buildNodes_spec (cleanedFields contents) ns hbuild
    refine ⟨?_, hspec.1.symm, hspec.2⟩
    rw [hparse]
    simp [buildStage, hdiv, hbuild]
  · intro hdiv
    rw [hparse]
    simp [buildStage, hdiv]

/-- Witness for C7 at a concrete one-record registry body. -/
theorem claim7_parse_column_mapping_witness :
    parseNodes contents7 = FetchResult.ok [node7]
      ∧ 6 * [node7].length = (cleanedFields contents7).length
      ∧ ∀ i, i < [node7].length →
          [node7].getD i default = nodeAt (cleanedFields contents7) i :=
  (claim7_parse_column_mapping contents7 [node7] (by decide) (by decide)).1
    (by decide) (by decide)

end ToxDynboot

namespace ToxDynboot

/-- C8 evaluation: the parser is not total — on the degenerate body
consisting of a single separator character, the split has two pieces and
the Go slice splitted[1:len(splitted)-2] has bounds 1 and 0, so
parseNodes panics (crash) instead of returning a typed error. -/
theorem claim8_parser_crash :
    parseNodes ("|") = FetchResult.crash
      ∧ isErrResult (parseNodes ("|")) = false := by
  constructor <;> rfl

/-- C9: in the shared launch loop of FetchAlive, FetchAnyAlive and
FetchFirstAlive each goroutine receives its record by value in its
argument list, so whatever schedule the runtime chooses for the
goroutines, the i-th probe observes exactly the i-th input record — its
observation is independent of the schedule, and in particular it can
never see another iteration's record through the shared loop variable. -/
theorem claim9_by_value_capture (nodes : List ToxNode)
    (sched sched2 : Nat → Nat) (i : Nat) (hi : i < nodes.length) :
    probeObservation nodes sched i = nodes.getD i default
      ∧ probeObservation nodes sched i = probeObservation nodes sched2 i := by
  have hlen : i < (spawnProbes nodes).length := by
    simpa [spawnProbes] using hi
  have hth : (spawnProbes nodes).getD i GoThunk.captured
      = GoThunk.byValue (nodes.getD i default) := by
    rw [List.getD_eq_getElem _ _ hlen, List.getD_eq_getElem _ _ hi]
    simp [spawnProbes]
  constructor
  · unfold probeObservation
    rw [hth]
    rfl
  · unfold probeObservation
    rw [hth]
    rfl

/-- Witness for C9 at a two-record list, probe index 1, under two
different schedules. -/
theorem claim9_by_value_capture_witness :
    probeObservation [nodeA, nodeB] (fun _ => 5) 1
        = [nodeA, nodeB].getD 1 default
      ∧ probeObservation [nodeA, nodeB] (fun _ => 5) 1
          = probeObservation [nodeA, nodeB] (fun _ => 0) 1 :=
  claim9_by_value_capture [nodeA, nodeB] (fun _ => 5) (fun _ => 0) 1 (by decide)

/-- C10: when the port field parses as a 32-bit integer lying outside
the range 0 to 65535, the record-building stage of parseNodes reports no
error: it silently truncates the value with uint16, producing a record
whose port is the parsed value modulo 2 to the 16, a value that differs
from the parsed one. -/
theorem claim10_port_truncation (ip4 ip6 pr key mt lc : List Char) (p : Int)
    (kb : List Nat) (hp : goParseInt32 pr = some p)
    (hout : p < 0 ∨ 65535 < p) (hk : hexDecode key = some kb) :
    buildStage [ip4, ip6, pr, key, mt, lc]
        = FetchResult.ok [⟨String.mk ip4, String.mk ip6, uint16cast p, kb,
            String.mk mt, String.mk lc⟩]
      ∧ (uint16cast p : Int) = p % 65536
      ∧ uint16cast p ≤ 65535
      ∧ (uint16cast p : Int) ≠ p := by
  have h0 : (0 : Int) ≤ p % 65536 := Int.emod_nonneg p (by decide)
  have h1 : p % 65536 < 65536 := Int.emod_lt_of_pos p (by decide)
  have hcast : (uint16cast p : Int) = p % 65536 := by
    simp only [uint16cast]
    exact Int.toNat_of_nonneg h0
  refine ⟨?_, hcast, ?_, ?_⟩
  · simp [buildStage, buildNodes, hp, hk]
  · omega
  · omega

/-- Witness for C10 with the out-of-range port value 70000, which is
silently truncated to 4464. -/
theorem claim10_port_truncation_witness :
    buildStage [String.data ("9.9.9.9"), String.data ("::9"),
        String.data ("70000"), String.data ("AB"), String.data ("m"),
        String.data ("l")]
        = FetchResult.ok [⟨"9.9.9.9", "::9", uint16cast 70000, [171], "m", "l"⟩]
      ∧ (uint16cast 70000 : Int) = 70000 % 65536
      ∧ uint16cast 70000 ≤ 65535
      ∧ (uint16cast 70000 : Int) ≠ 70000 :=
  claim10_port_truncation (String.data ("9.9.9.9")) (String.data ("::9"))
    (String.data ("70000")) (String.data ("AB")) (String.data ("m"))
    (String.data ("l")) 70000 [171] (by decide) (Or.inr (by decide)) (by decide)

end ToxDynboot
